import Mathlib

/-!
Verification development for `steam_symlink_gui.py`, the Steam download
symlink helper.  The Python program is shallowly embedded: paths are plain
strings, the filesystem is a map from path strings to nodes together with
oracles for the aspects the program only observes through the OS (symbolic
link resolution, the directory a link designates, whether `iterdir`
succeeds, whether `os.symlink` succeeds, whether `shutil.move` raises).
Python exceptions are modelled with `Except String`; a caught exception
(`App._run`) becomes an `ERROR:` log record.  Confirmation dialogs
(`App._confirm`) are an oracle from the dialog title to a yes/no answer.
-/

/-! ## Path strings

`pathlib.Path` normalisation, modelled on POSIX component semantics:
`str(Path(s))` drops empty and `.` components and trailing slashes and
keeps a leading `/`.  `Path.name` is the last component, `Path.parent.name`
the one before it. -/

/-- Whitespace characters of Python's regex `\s` and of `str.strip`. -/
def isSpaceChar (c : Char) : Bool :=
  c = ' ' || c = '\t' || c = '\n' || c = '\r' || c = '\x0b' || c = '\x0c'

/-- Split a character list on `/`, accumulator-style. -/
def splitSlashGo : List Char → List Char → List (List Char)
  | [], acc => [acc.reverse]
  | c :: rest, acc =>
    if c = '/' then acc.reverse :: splitSlashGo rest []
    else splitSlashGo rest (c :: acc)

/-- All `/`-separated components of a string. -/
def splitSlash (s : String) : List (List Char) :=
  splitSlashGo s.data []

/-- The nonempty, non-`.` path components, as `Path.parts` (less anchor). -/
def pathParts (s : String) : List (List Char) :=
  (splitSlash s).filter (fun c => c ≠ [] && c ≠ ['.'])

/-- Join components with `/`. -/
def joinParts : List (List Char) → List Char
  | [] => []
  | [p] => p
  | p :: rest => p ++ '/' :: joinParts rest

/-- `str(Path(s))`: normalised path string (leading `/` kept, duplicate
slashes, `.` components and trailing slashes dropped). -/
def normPath (s : String) : String :=
  ⟨(if s.data.head? = some '/' then ['/'] else []) ++ joinParts (pathParts s)⟩

/-- `str(Path(a) / b)`: path join. -/
def joinPath (a b : String) : String :=
  normPath (a ++ "/" ++ b)

/-- `Path(s).name`. -/
def nameOf (s : String) : String :=
  ⟨((pathParts s).getLast?).getD []⟩

/-- `Path(s).parent.name`. -/
def parentNameOf (s : String) : String :=
  ⟨((pathParts s).dropLast.getLast?).getD []⟩

/-- `str.strip()` restricted to ASCII whitespace. -/
def stripChars (cs : List Char) : List Char :=
  ((cs.dropWhile isSpaceChar).reverse.dropWhile isSpaceChar).reverse

/-- `s.strip()`. -/
def stripStr (s : String) : String :=
  ⟨stripChars s.data⟩

/-! ## Filesystem model -/

/-- What sits at one path: nothing, a symbolic link, a directory with the
names of its entries, or a non-directory file. -/
inductive Node where
  | missing
  | symlink
  | dir (entries : List String)
  | file
  deriving DecidableEq, Repr

/-- A filesystem state.  `node` is the entry at each (normalised) path
string.  The remaining fields are oracles for behaviour the program only
sees through the OS and that mutation inside one run does not change in a
way the program observes:
* `linkView p`: for a symbolic link at `p`, the node the fully followed
  link designates (`none` for a broken link) — backs `Path.exists` /
  `Path.is_dir`, which follow links;
* `resolve p`: `Path(p).resolve()` — `none` models a raised exception;
* `listable p`: whether `Path(p).iterdir()` succeeds;
* `symlink_ok p`: whether `os.symlink(target, p)` succeeds, with
  `oserr p` the OS error text otherwise (the Windows winerror-1314 variant
  of the message only differs in text and is folded into the oracle);
* `moveRaises p`: whether `shutil.move` raises while moving the entries
  of the directory at `p`. -/
structure FS where
  node : String → Node
  linkView : String → Option Node
  resolve : String → Option String
  listable : String → Bool
  symlink_ok : String → Bool
  oserr : String → String
  moveRaises : String → Bool

/-- Replace the node at one path. -/
def setNode (fs : FS) (p : String) (n : Node) : FS :=
  { fs with node := fun q => if q = p then n else fs.node q }

/-- There is a filesystem entry at `p` (`os.path.lexists`): even a broken
symbolic link counts. -/
def entryExists (fs : FS) (p : String) : Bool :=
  fs.node p ≠ Node.missing

/-- `Path(p).is_symlink()`. -/
def isSymlinkAt (fs : FS) (p : String) : Bool :=
  fs.node p = Node.symlink

/-- `Path(p).exists()`: follows symbolic links, so a broken link does not
exist. -/
def pexists (fs : FS) (p : String) : Bool :=
  match fs.node p with
  | Node.missing => false
  | Node.symlink => (fs.linkView p).isSome
  | _ => true

/-- `Path(p).is_dir()`: follows symbolic links. -/
def pisdir (fs : FS) (p : String) : Bool :=
  match fs.node p with
  | Node.dir _ => true
  | Node.symlink =>
    match fs.linkView p with
    | some (Node.dir _) => true
    | _ => false
  | _ => false

/-- The entry names `Path(p).iterdir()` yields (through a link for a
symlinked directory). -/
def entriesAt (fs : FS) (p : String) : List String :=
  match fs.node p with
  | Node.dir es => es
  | Node.symlink =>
    match fs.linkView p with
    | some (Node.dir es) => es
    | _ => []
  | _ => []

/-- `is_symlink_to` (source lines 83-87): `path.is_symlink() and
path.resolve() == target.resolve()`, any exception giving `False`. -/
def is_symlink_to (fs : FS) (path target : String) : Bool :=
  isSymlinkAt fs path &&
    match fs.resolve path, fs.resolve target with
    | some a, some b => a = b
    | _, _ => false

/-- `ensure_dir` (lines 90-91): `path.mkdir(parents=True, exist_ok=True)`.
With an entry present, `exist_ok` only suppresses the error when the path
is a directory (links followed); otherwise `FileExistsError` propagates. -/
def ensure_dir (fs : FS) (p : String) : Except String FS :=
  match fs.node p with
  | Node.missing => Except.ok (setNode fs p (Node.dir []))
  | Node.dir _ => Except.ok fs
  | Node.symlink =>
    if pisdir fs p then Except.ok fs else Except.error ("mkdir failed: " ++ p)
  | Node.file => Except.error ("mkdir failed: " ++ p)

/-- `dir_is_empty` (lines 94-102): nonexistent → True, non-directory →
False, `iterdir` failure (the `except` branch) → False, else whether the
first entry is absent. -/
def dir_is_empty (fs : FS) (p : String) : Bool :=
  if pexists fs p = false then true
  else if pisdir fs p = false then false
  else if fs.listable p = false then false
  else (entriesAt fs p).isEmpty

/-- `create_symlink_safe` (lines 105-131): creates the link and reports
`(success, message)`; every exception is caught, never propagated. -/
def create_symlink_safe (fs : FS) (link_path target_path : String) :
    FS × Bool × String :=
  if fs.symlink_ok link_path then
    (setNode fs link_path Node.symlink, true,
      "Successfully created symlink: " ++ link_path ++ " -> " ++ target_path)
  else
    (fs, false,
      "Failed to create symlink: " ++ fs.oserr link_path ++
        "\nTarget: " ++ link_path ++ " -> " ++ target_path)

/-- `move_dir_contents` (lines 134-137): `ensure_dir(dst)` then
`shutil.move` of every entry of `src` into `dst`.  A failing `iterdir` or
a failing move raises (nothing here catches).  Moving into a symlinked
directory deposits the entries in the linked-to directory, which the node
map does not track, so the `dst` node is then left unchanged. -/
def move_dir_contents (fs : FS) (src dst : String) : Except String FS :=
  match ensure_dir fs dst with
  | Except.error e => Except.error e
  | Except.ok fs1 =>
    if fs1.listable src = false then Except.error ("iterdir failed: " ++ src)
    else if fs1.moveRaises src then Except.error ("move failed: " ++ src)
    else
      match fs1.node src with
      | Node.dir es =>
        let fs2 :=
          match fs1.node dst with
          | Node.dir ds => setNode fs1 dst (Node.dir (ds ++ es))
          | _ => fs1
        Except.ok (setNode fs2 src (Node.dir []))
      | _ => Except.ok fs1

/-! ## Path classification -/

/-- The five-way conflict classification of the spec (data model §3). -/
inductive PathState where
  | Missing
  | SymlinkCorrect
  | SymlinkWrong
  | EmptyDirectory
  | NonEmptyDirectory
  | NonDirectoryFile
  deriving DecidableEq, Repr

/-- PathClassifier as the branch structure of `App._do_run` (lines
296-353): symlink test first (`Path.is_symlink`, true also for broken
links), then `Path.exists`, then `Path.is_dir` and `dir_is_empty`. -/
def classify (fs : FS) (link_path target_path : String) : PathState :=
  if isSymlinkAt fs link_path then
    if is_symlink_to fs link_path target_path then PathState.SymlinkCorrect
    else PathState.SymlinkWrong
  else if pexists fs link_path then
    if pisdir fs link_path then
      if dir_is_empty fs link_path then PathState.EmptyDirectory
      else PathState.NonEmptyDirectory
    else PathState.NonDirectoryFile
  else PathState.Missing

/-- Modelled from the spec (§4.3), for the refinement half of claim C1:
"if linkPath does not exist → Missing; else if linkPath is a symbolic link
→ resolve both and compare, resolution failures → SymlinkWrong; else if a
directory → empty/non-empty; else → NonDirectoryFile".  Since §4.3 sends
broken links to `SymlinkWrong`, "does not exist" is read as the absence of
any filesystem entry; "empty (no entries)" is realised by the observable
`dir_is_empty` probe (an unreadable directory reports as non-empty, the
spec's §7 best-effort policy). -/
def classifySpecDesc (fs : FS) (link_path target_path : String) : PathState :=
  if entryExists fs link_path = false then PathState.Missing
  else if isSymlinkAt fs link_path then
    match fs.resolve link_path, fs.resolve target_path with
    | some a, some b =>
      if a = b then PathState.SymlinkCorrect else PathState.SymlinkWrong
    | _, _ => PathState.SymlinkWrong
  else if pisdir fs link_path then
    if dir_is_empty fs link_path then PathState.EmptyDirectory
    else PathState.NonEmptyDirectory
  else PathState.NonDirectoryFile

/-! ## Executor -/

/-- Outcome of one log record. -/
inductive Outcome where
  | ok
  | skipped
  | failed
  deriving DecidableEq, Repr

/-- One executed operation's record: the managed subdirectory name, the
outcome, and the log message (`""` as name for the run-level handler's
record). -/
structure Record where
  sub : String
  outcome : Outcome
  msg : String
  deriving DecidableEq, Repr

/-- The body of the `for sub, _ in plan` loop of `App._do_run` (lines
291-360) for one operation.  `confirm` maps a dialog title to the user's
answer.  `Except.error` is a Python exception escaping the loop body
(possible in `ensure_dir` and `move_dir_contents`; `link_path.unlink()`,
`rmdir` and the `rmtree` fallback are modelled as succeeding). -/
def execOp (fs : FS) (confirm : String → Bool) (sub link_path target_path : String) :
    Except String (FS × Record) :=
  match ensure_dir fs target_path with
  | Except.error e => Except.error e
  | Except.ok fs1 =>
    if isSymlinkAt fs1 link_path then
      if is_symlink_to fs1 link_path target_path then
        Except.ok (fs1, ⟨sub, Outcome.ok,
          "OK: " ++ link_path ++ " already links to " ++ target_path⟩)
      else if confirm "Replace symlink" = false then
        Except.ok (fs1, ⟨sub, Outcome.skipped,
          "Skipped replacing symlink: " ++ link_path⟩)
      else
        let fs2 := setNode fs1 link_path Node.missing
        match create_symlink_safe fs2 link_path target_path with
        | (fs3, true, _) =>
          Except.ok (fs3, ⟨sub, Outcome.ok,
            "Replaced symlink: " ++ link_path ++ " -> " ++ target_path⟩)
        | (fs3, false, m) =>
          Except.ok (fs3, ⟨sub, Outcome.failed, "ERROR: " ++ m⟩)
    else if pexists fs1 link_path then
      if pisdir fs1 link_path then
        if dir_is_empty fs1 link_path then
          let fs2 := setNode fs1 link_path Node.missing
          match create_symlink_safe fs2 link_path target_path with
          | (fs3, true, _) =>
            Except.ok (fs3, ⟨sub, Outcome.ok,
              "Linked (empty replaced): " ++ link_path ++ " -> " ++ target_path⟩)
          | (fs3, false, m) =>
            Except.ok (fs3, ⟨sub, Outcome.failed, "ERROR: " ++ m⟩)
        else if confirm "Move contents?" = false then
          Except.ok (fs1, ⟨sub, Outcome.skipped,
            "Skipped: left existing directory: " ++ link_path⟩)
        else
          match move_dir_contents fs1 link_path target_path with
          | Except.error e => Except.error e
          | Except.ok fs2 =>
            let fs3 := setNode fs2 link_path Node.missing
            match create_symlink_safe fs3 link_path target_path with
            | (fs4, true, _) =>
              Except.ok (fs4, ⟨sub, Outcome.ok,
                "Moved contents and linked: " ++ link_path ++ " -> " ++ target_path⟩)
            | (fs4, false, m) =>
              Except.ok (fs4, ⟨sub, Outcome.failed, "ERROR: " ++ m⟩)
      else
        Except.ok (fs1, ⟨sub, Outcome.failed,
          "ERROR: Path exists and is not a directory: " ++ link_path⟩)
    else
      match create_symlink_safe fs1 link_path target_path with
      | (fs2, true, _) =>
        Except.ok (fs2, ⟨sub, Outcome.ok,
          "Linked: " ++ link_path ++ " -> " ++ target_path⟩)
      | (fs2, false, m) =>
        Except.ok (fs2, ⟨sub, Outcome.failed, "ERROR: " ++ m⟩)

/-- The whole loop: records accumulate; an operation's escaping exception
stops the loop (the remaining subdirectories are not attempted) and is
reported in the third component. -/
def execPlan (confirm : String → Bool) (sa target_root : String) :
    List String → FS → FS × List Record × Option String
  | [], fs => (fs, [], none)
  | sub :: rest, fs =>
    match execOp fs confirm sub (joinPath sa sub) (joinPath target_root sub) with
    | Except.ok (fs1, r) =>
      let out := execPlan confirm sa target_root rest fs1
      (out.1, r :: out.2.1, out.2.2)
    | Except.error e => (fs, [], some e)

/-- How a run ended. -/
inductive RunExit where
  | missingInput
  | nameDeclined
  | invalidSource
  | notConfirmed
  | raised
  | done
  deriving DecidableEq, Repr

/-- Result of one `Create Symlinks` run: final filesystem, log records,
and how the run ended. -/
structure RunResult where
  fs : FS
  log : List Record
  exit : RunExit

/-- `lib_name = steamapps.parent.name or "steam_library"` (line 273). -/
def libNameOf (sa : String) : String :=
  if parentNameOf sa = "" then "steam_library" else parentNameOf sa

/-- `target_root = dest_base / f"{lib_name}_symlink"` (line 274). -/
def targetRootOf (dest_base sa : String) : String :=
  joinPath dest_base (libNameOf sa ++ "_symlink")

/-- The ordered plan (lines 277-279): `downloading` always, `temp` iff the
checkbox flag is set. -/
def planOf (link_temp : Bool) : List String :=
  "downloading" :: (if link_temp then ["temp"] else [])

/-- The destination scaffold (lines 269-275): `ensure_dir(dest_base)` then
`ensure_dir(target_root)`; the first raised exception is reported beside
the state reached so far. -/
def scaffold (fs : FS) (dest_base sa : String) : FS × Option String :=
  match ensure_dir fs dest_base with
  | Except.error e => (fs, some e)
  | Except.ok fs1 =>
    match ensure_dir fs1 (targetRootOf dest_base sa) with
    | Except.error e => (fs1, some e)
    | Except.ok fs2 => (fs2, none)

/-- `App._do_run` from the source-validity check on (lines 265-362):
abort with `InvalidSource` before any mutation, else build the
destination scaffold, ask the summary confirmation, and run the loop. -/
def doRunValidated (fs : FS) (confirm : String → Bool) (sa destStr : String)
    (link_temp : Bool) : RunResult :=
  if pexists fs sa = false ∨ pisdir fs sa = false then
    ⟨fs, [], RunExit.invalidSource⟩
  else
    let dest := normPath destStr
    match scaffold fs dest sa with
    | (fsS, some e) => ⟨fsS, [⟨"", Outcome.failed, "ERROR: " ++ e⟩], RunExit.raised⟩
    | (fsS, none) =>
      if confirm "Proceed?" = false then ⟨fsS, [], RunExit.notConfirmed⟩
      else
        let out := execPlan confirm sa (targetRootOf dest sa) (planOf link_temp) fsS
        match out.2.2 with
        | none => ⟨out.1, out.2.1, RunExit.done⟩
        | some e =>
          ⟨out.1, out.2.1 ++ [⟨"", Outcome.failed, "ERROR: " ++ e⟩], RunExit.raised⟩

/-- `App._do_run` (lines 245-362) under the exception handler of
`App._run` (lines 238-243): input stripping and emptiness checks, the
`steamapps`-name confirmation, then `doRunValidated`.  A caught exception
appends an `ERROR:` record, as `_run` does. -/
def doRun (fs : FS) (confirm : String → Bool) (saRaw destRaw : String)
    (link_temp : Bool) : RunResult :=
  let saStr := stripStr saRaw
  let destStr := stripStr destRaw
  if saStr = "" then ⟨fs, [], RunExit.missingInput⟩
  else if destStr = "" then ⟨fs, [], RunExit.missingInput⟩
  else
    let sa := normPath saStr
    if nameOf sa = "steamapps" then doRunValidated fs confirm sa destStr link_temp
    else if confirm "Confirm steamapps" then doRunValidated fs confirm sa destStr link_temp
    else ⟨fs, [], RunExit.nameDeclined⟩

/-! ## Configuration parsing and discovery -/

/-- Scan up to the next `"`: the characters before it and the characters
after it (the `([^"]+)"` tail of the regex, emptiness checked by the
caller).  `none` when no closing quote remains. -/
def grabVal : List Char → Option (List Char × List Char)
  | [] => none
  | c :: cs =>
    if c = '"' then some ([], cs)
    else
      match grabVal cs with
      | some (v, r) => some (c :: v, r)
      | none => none

/-- One attempted match of `re` pattern `"path"\s+"([^"]+)"` at the head
of the input: the captured value and the input after the match. -/
def matchPathAt (cs : List Char) : Option (String × List Char) :=
  match cs with
  | '"' :: 'p' :: 'a' :: 't' :: 'h' :: '"' :: c :: cs2 =>
    if isSpaceChar c then
      match cs2.dropWhile isSpaceChar with
      | '"' :: rest =>
        match grabVal rest with
        | some (v, r) => if v = [] then none else some (⟨v⟩, r)
        | none => none
      | _ => none
    else none
  | _ => none

/-- `re.findall` driver: leftmost match, continue after it; fuelled by the
input length (each step consumes at least one character). -/
def scanGo : Nat → List Char → List String
  | 0, _ => []
  | fuel + 1, cs =>
    match matchPathAt cs with
    | some (v, rest) => v :: scanGo fuel rest
    | none =>
      match cs with
      | [] => []
      | _ :: tl => scanGo fuel tl

/-- `re.findall(r'"path"\s+"([^"]+)"', text)` (line 49). -/
def scanPaths (cs : List Char) : List String :=
  scanGo cs.length cs

/-- The host environment the discovery functions read (never mutate):
`expand` is `_expanduser` (lines 20-21, `expandvars` + `expanduser` +
`Path` normalisation — environment-dependent, hence an oracle), and
`exists_`, `isFile`, `isDir`, `read` are `Path.exists`, `Path.is_file`,
`Path.is_dir` and `Path.read_text` (`none` when reading raises). -/
structure Env where
  expand : String → String
  exists_ : String → Bool
  isFile : String → Bool
  isDir : String → Bool
  read : String → Option String

/-- The candidate `libraryfolders.vdf` locations (lines 26-30). -/
def libraryfoldersCandidates : List String :=
  ["~/.local/share/Steam/steamapps/libraryfolders.vdf",
   "~/.steam/steam/steamapps/libraryfolders.vdf",
   "~/.var/app/com.valvesoftware.Steam/.local/share/Steam/steamapps/libraryfolders.vdf"]

/-- `find_libraryfolders_files` (lines 24-35). -/
def find_libraryfolders_files (env : Env) : List String :=
  (libraryfoldersCandidates.map env.expand).filter
    (fun p => env.exists_ p && env.isFile p)

/-- `parse_libraryfolders` (lines 38-55): unreadable input → `[]`; else
every regex capture, expanded, kept when it exists. -/
def parse_libraryfolders (env : Env) (vdf_path : String) : List String :=
  match env.read vdf_path with
  | none => []
  | some text => ((scanPaths text.data).map env.expand).filter env.exists_

/-- The default steamapps locations (lines 63-67). -/
def defaultSteamappsCandidates : List String :=
  ["~/.local/share/Steam/steamapps",
   "~/.steam/steam/steamapps",
   "~/.var/app/com.valvesoftware.Steam/.local/share/Steam/steamapps"]

/-- `discover_steamapps_dirs` (lines 58-80): the defaults that exist as
directories, plus `<library root>/steamapps` for every parsed root when it
exists as a directory, as a set (`dedup`) sorted by path string
(`sorted(..., key=str)`, a stable sort under string `≤`). -/
def discover_steamapps_dirs (env : Env) : List String :=
  let fromDefaults := (defaultSteamappsCandidates.map env.expand).filter
    (fun p => env.exists_ p && env.isDir p)
  let fromVdf := (find_libraryfolders_files env).flatMap (fun vdf =>
    ((parse_libraryfolders env vdf).map (fun root => joinPath root "steamapps")).filter
      (fun sa => env.exists_ sa && env.isDir sa))
  ((fromDefaults ++ fromVdf).dedup).mergeSort (fun a b => decide (a ≤ b))

/-! ## Assembled configuration texts (for stating C3) -/

/-- One well-formed `"path" "v"` occurrence. -/
def occBlock (v : String) : List Char :=
  '"' :: 'p' :: 'a' :: 't' :: 'h' :: '"' :: ' ' :: '"' :: (v.data ++ ['"'])

/-- A configuration text as separator/occurrence blocks and a tail. -/
def assemble : List (List Char × String) → List Char → List Char
  | [], tail => tail
  | (sep, v) :: rest, tail => sep ++ occBlock v ++ assemble rest tail

/-! ## Concrete states used by witnesses and counterexamples -/

/-- A library whose `downloading` already is a correct symlink and whose
destination directory exists. -/
def fsAlready : FS where
  node := fun p =>
    if p = "/h/steamapps" then Node.dir ["downloading"]
    else if p = "/h/steamapps/downloading" then Node.symlink
    else if p = "/sd/h_symlink/downloading" then Node.dir []
    else if p = "/sd" then Node.dir ["h_symlink"]
    else Node.missing
  linkView := fun p =>
    if p = "/h/steamapps/downloading" then some (Node.dir []) else none
  resolve := fun p =>
    if p = "/h/steamapps/downloading" then some "/sd/h_symlink/downloading"
    else some p
  listable := fun _ => true
  symlink_ok := fun _ => true
  oserr := fun _ => "oserror"
  moveRaises := fun _ => false

/-- `downloading` is a (broken) symlink whose resolution agrees with the
missing destination directory: canonically correct, yet the destination
still gets created. -/
def fsBrokenCorrect : FS where
  node := fun p =>
    if p = "/h/steamapps" then Node.dir ["downloading"]
    else if p = "/h/steamapps/downloading" then Node.symlink
    else Node.missing
  linkView := fun _ => none
  resolve := fun p =>
    if p = "/h/steamapps/downloading" then some "/sd/h_symlink/downloading"
    else some p
  listable := fun _ => true
  symlink_ok := fun _ => true
  oserr := fun _ => "oserror"
  moveRaises := fun _ => false

/-- `downloading` is a symlink to some other place; the destination
directory does not exist yet. -/
def fsWrongMissing : FS where
  node := fun p =>
    if p = "/h/steamapps" then Node.dir ["downloading"]
    else if p = "/h/steamapps/downloading" then Node.symlink
    else Node.missing
  linkView := fun p =>
    if p = "/h/steamapps/downloading" then some (Node.dir ["old"]) else none
  resolve := fun p =>
    if p = "/h/steamapps/downloading" then some "/elsewhere/downloading"
    else some p
  listable := fun _ => true
  symlink_ok := fun _ => true
  oserr := fun _ => "oserror"
  moveRaises := fun _ => false

/-- `downloading` is a symlink to some other place; the destination
directory already exists. -/
def fsWrongDir : FS where
  node := fun p =>
    if p = "/h/steamapps" then Node.dir ["downloading"]
    else if p = "/h/steamapps/downloading" then Node.symlink
    else if p = "/sd/h_symlink/downloading" then Node.dir []
    else Node.missing
  linkView := fun p =>
    if p = "/h/steamapps/downloading" then some (Node.dir ["old"]) else none
  resolve := fun p =>
    if p = "/h/steamapps/downloading" then some "/elsewhere/downloading"
    else some p
  listable := fun _ => true
  symlink_ok := fun _ => true
  oserr := fun _ => "oserror"
  moveRaises := fun _ => false

/-- `downloading` is a non-empty real directory and `shutil.move` raises
on it; `temp` would be a fresh link. -/
def fsMoveFail : FS where
  node := fun p =>
    if p = "/h/steamapps" then Node.dir ["downloading", "temp"]
    else if p = "/h/steamapps/downloading" then Node.dir ["f1"]
    else if p = "/sd" then Node.dir []
    else Node.missing
  linkView := fun _ => none
  resolve := fun p => some p
  listable := fun _ => true
  symlink_ok := fun _ => true
  oserr := fun _ => "oserror"
  moveRaises := fun p => p = "/h/steamapps/downloading"

/-- A plain library with nothing at the link paths and an existing
destination base. -/
def fsPlain : FS where
  node := fun p =>
    if p = "/h/steamapps" then Node.dir []
    else if p = "/sd" then Node.dir []
    else Node.missing
  linkView := fun _ => none
  resolve := fun p => some p
  listable := fun _ => true
  symlink_ok := fun _ => true
  oserr := fun _ => "oserror"
  moveRaises := fun _ => false

/-- `downloading` is a directory whose entries cannot be listed
(permission error); the destination directory exists. -/
def fsUnlistable : FS where
  node := fun p =>
    if p = "/h/steamapps" then Node.dir ["downloading"]
    else if p = "/h/steamapps/downloading" then Node.dir ["g"]
    else if p = "/sd/h_symlink/downloading" then Node.dir []
    else Node.missing
  linkView := fun _ => none
  resolve := fun p => some p
  listable := fun p => p ≠ "/h/steamapps/downloading"
  symlink_ok := fun _ => true
  oserr := fun _ => "oserror"
  moveRaises := fun _ => false

/-- `downloading` is a plain empty directory while both resolutions agree
(the destination is a symlink back to it): canonical equality without a
symlink at the link path. -/
def fsDirSameResolve : FS where
  node := fun p =>
    if p = "/h/steamapps" then Node.dir ["downloading"]
    else if p = "/h/steamapps/downloading" then Node.dir []
    else if p = "/sd/h_symlink/downloading" then Node.symlink
    else Node.missing
  linkView := fun p =>
    if p = "/sd/h_symlink/downloading" then some (Node.dir []) else none
  resolve := fun p =>
    if p = "/sd/h_symlink/downloading" then some "/h/steamapps/downloading"
    else some p
  listable := fun _ => true
  symlink_ok := fun _ => true
  oserr := fun _ => "oserror"
  moveRaises := fun _ => false

/-- A host with one readable configuration file and one existing library. -/
def envBenign : Env where
  expand := fun s => s
  exists_ := fun s => s = "/mnt/lib"
  isFile := fun _ => true
  isDir := fun _ => true
  read := fun p => if p = "/cfg" then some "x \"path\" \"/mnt/lib\" y" else none

/-! ## Basic lemmas about the filesystem primitives -/

theorem setNode_node_self (fs : FS) (p : String) (n : Node) :
    (setNode fs p n).node p = n := by
  simp [setNode]

theorem setNode_node_ne (fs : FS) (p : String) (n : Node) {q : String}
    (h : q ≠ p) : (setNode fs p n).node q = fs.node q := by
  simp [setNode, h]

theorem pexists_setNode (fs : FS) (p : String) (n : Node) {q : String}
    (h : q ≠ p) : pexists (setNode fs p n) q = pexists fs q := by
  simp [pexists, setNode, h]

theorem pisdir_setNode (fs : FS) (p : String) (n : Node) {q : String}
    (h : q ≠ p) : pisdir (setNode fs p n) q = pisdir fs q := by
  simp [pisdir, setNode, h]

theorem isSymlinkAt_setNode (fs : FS) (p : String) (n : Node) {q : String}
    (h : q ≠ p) : isSymlinkAt (setNode fs p n) q = isSymlinkAt fs q := by
  simp [isSymlinkAt, setNode, h]

theorem entriesAt_setNode (fs : FS) (p : String) (n : Node) {q : String}
    (h : q ≠ p) : entriesAt (setNode fs p n) q = entriesAt fs q := by
  simp [entriesAt, setNode, h]

theorem dir_is_empty_setNode (fs : FS) (p : String) (n : Node) {q : String}
    (h : q ≠ p) : dir_is_empty (setNode fs p n) q = dir_is_empty fs q := by
  unfold dir_is_empty
  rw [pexists_setNode fs p n h, pisdir_setNode fs p n h,
    entriesAt_setNode fs p n h]
  rfl

theorem is_symlink_to_setNode (fs : FS) (p : String) (n : Node) {l : String}
    (t : String) (h : l ≠ p) :
    is_symlink_to (setNode fs p n) l t = is_symlink_to fs l t := by
  simp [is_symlink_to, isSymlinkAt, setNode, h]

theorem ensure_dir_ok_cases {fs : FS} {p : String} {fs' : FS}
    (h : ensure_dir fs p = Except.ok fs') :
    fs' = fs ∨ (fs.node p = Node.missing ∧ fs' = setNode fs p (Node.dir [])) := by
  unfold ensure_dir at h
  split at h
  · rename_i hn
    right
    refine ⟨hn, ?_⟩
    injection h with h1
    exact h1.symm
  · left
    injection h with h1
    exact h1.symm
  · split at h
    · left
      injection h with h1
      exact h1.symm
    · simp at h
  · simp at h

theorem ensure_dir_ok_pisdir {fs : FS} {p : String} {fs' : FS}
    (h : ensure_dir fs p = Except.ok fs') : pisdir fs' p = true := by
  unfold ensure_dir at h
  split at h
  · injection h with h1
    subst h1
    simp [pisdir, setNode]
  · rename_i hn
    injection h with h1
    subst h1
    simp [pisdir, hn]
  · rename_i hn
    split at h
    · rename_i hp
      injection h with h1
      subst h1
      exact hp
    · simp at h
  · simp at h

theorem ensure_dir_of_pisdir {fs : FS} {p : String} (h : pisdir fs p = true) :
    ensure_dir fs p = Except.ok fs := by
  cases hn : fs.node p with
  | missing => simp [pisdir, hn] at h
  | symlink => simp [ensure_dir, hn, h]
  | dir es => simp [ensure_dir, hn]
  | file => simp [pisdir, hn] at h

theorem ensure_dir_of_dir {fs : FS} {p : String} {es : List String}
    (h : fs.node p = Node.dir es) : ensure_dir fs p = Except.ok fs := by
  simp [ensure_dir, h]

theorem ensure_dir_of_missing {fs : FS} {p : String}
    (h : fs.node p = Node.missing) :
    ensure_dir fs p = Except.ok (setNode fs p (Node.dir [])) := by
  simp [ensure_dir, h]

theorem move_ok_pisdir {fs : FS} {l t : String} {fs2 : FS} (hlt : l ≠ t)
    (h : move_dir_contents fs l t = Except.ok fs2) : pisdir fs2 t = true := by
  unfold move_dir_contents at h
  split at h
  · simp at h
  · rename_i fs1 he
    have h1 : pisdir fs1 t = true := ensure_dir_ok_pisdir he
    split at h
    · simp at h
    · split at h
      · simp at h
      · split at h
        · rename_i es hnl
          cases hnt : fs1.node t with
          | dir ds =>
            simp only [hnt] at h
            injection h with h2
            subst h2
            rw [pisdir_setNode _ _ _ (Ne.symm hlt)]
            simp [pisdir, setNode]
          | missing =>
            simp only [hnt] at h
            injection h with h2
            subst h2
            rw [pisdir_setNode _ _ _ (Ne.symm hlt)]
            exact h1
          | symlink =>
            simp only [hnt] at h
            injection h with h2
            subst h2
            rw [pisdir_setNode _ _ _ (Ne.symm hlt)]
            exact h1
          | file =>
            simp only [hnt] at h
            injection h with h2
            subst h2
            rw [pisdir_setNode _ _ _ (Ne.symm hlt)]
            exact h1
        · injection h with h2
          subst h2
          exact h1

theorem create_symlink_safe_pisdir {fs : FS} {l t : String} {fs3 : FS}
    {b : Bool} {m : String} (h : create_symlink_safe fs l t = (fs3, b, m))
    {q : String} (hq : q ≠ l) : pisdir fs3 q = pisdir fs q := by
  unfold create_symlink_safe at h
  split at h
  · injection h with h1 h2
    subst h1
    exact pisdir_setNode _ _ _ hq
  · injection h with h1 h2
    subst h1
    rfl

theorem classify_eq_specDesc (fs : FS) (l t : String) :
    classify fs l t = classifySpecDesc fs l t := by
  cases hn : fs.node l with
  | missing =>
    simp [classify, classifySpecDesc, isSymlinkAt, entryExists, pexists, hn]
  | symlink =>
    simp only [classify, classifySpecDesc, isSymlinkAt, entryExists,
      is_symlink_to, hn]
    rcases hr1 : fs.resolve l with _ | a <;>
      rcases hr2 : fs.resolve t with _ | b <;>
        simp [hr1, hr2]
  | dir es =>
    simp [classify, classifySpecDesc, isSymlinkAt, entryExists, pexists,
      pisdir, hn]
  | file =>
    simp [classify, classifySpecDesc, isSymlinkAt, entryExists, pexists,
      pisdir, hn]

theorem classify_correct_resolves {fs : FS} {l t : String}
    (h : classify fs l t = PathState.SymlinkCorrect) :
    ∃ c, fs.resolve l = some c ∧ fs.resolve t = some c := by
  unfold classify at h
  split at h
  · split at h
    · rename_i hsym hto
      unfold is_symlink_to at hto
      rcases hr1 : fs.resolve l with _ | a <;>
        rcases hr2 : fs.resolve t with _ | b <;>
          rw [hr1, hr2] at hto <;> simp at hto
      · exact ⟨a, rfl, by rw [hto.2]⟩
    · simp at h
  · split at h
    · split at h
      · split at h <;> simp at h
      · simp at h
    · simp at h

theorem classify_correct_of_resolves {fs : FS} {l t : String}
    (hs : isSymlinkAt fs l = true) {c : String}
    (h1 : fs.resolve l = some c) (h2 : fs.resolve t = some c) :
    classify fs l t = PathState.SymlinkCorrect := by
  have hto : is_symlink_to fs l t = true := by
    unfold is_symlink_to
    rw [h1, h2]
    simp [hs]
  simp [classify, hs, hto]

/-- C1: PathClassifier follows the spec's priority order (`classify`,
the branch structure of `App._do_run`, equals `classifySpecDesc`, written
from the spec's words), `SymlinkCorrect` implies that both canonical
resolutions succeed and agree, and — amended — the converse holds under
the hypothesis that linkPath is a symbolic link: for a non-symlink
linkPath equal resolutions do not give `SymlinkCorrect` (see the
counterexample). -/
theorem C1_classifier (fs : FS) (l t : String) :
    classify fs l t = classifySpecDesc fs l t
  ∧ (classify fs l t = PathState.SymlinkCorrect →
      ∃ c, fs.resolve l = some c ∧ fs.resolve t = some c)
  ∧ (isSymlinkAt fs l = true →
      (classify fs l t = PathState.SymlinkCorrect ↔
        ∃ c, fs.resolve l = some c ∧ fs.resolve t = some c)) :=
  ⟨classify_eq_specDesc fs l t,
   fun h => classify_correct_resolves h,
   fun hs =>
     ⟨fun h => classify_correct_resolves h,
      fun ⟨_, h1, h2⟩ => classify_correct_of_resolves hs h1 h2⟩⟩

/-- C1 witness: a concrete correct symlink, where the amended iff holds. -/
theorem C1_classifier_witness :
    isSymlinkAt fsAlready "/h/steamapps/downloading" = true
  ∧ (classify fsAlready "/h/steamapps/downloading" "/sd/h_symlink/downloading" =
        PathState.SymlinkCorrect ↔
      ∃ c, fsAlready.resolve "/h/steamapps/downloading" = some c ∧
        fsAlready.resolve "/sd/h_symlink/downloading" = some c) :=
  ⟨by decide,
   (C1_classifier fsAlready "/h/steamapps/downloading"
      "/sd/h_symlink/downloading").2.2 (by decide)⟩

/-- C1 counterexample: linkPath is a plain empty directory and targetPath
a symlink back to it, so both canonical resolutions agree, yet the state
is `EmptyDirectory`, not `SymlinkCorrect`: the claim's unconditional iff
fails. -/
theorem C1_classifier_counterexample :
    (∃ c, fsDirSameResolve.resolve "/h/steamapps/downloading" = some c ∧
        fsDirSameResolve.resolve "/sd/h_symlink/downloading" = some c)
  ∧ classify fsDirSameResolve "/h/steamapps/downloading"
      "/sd/h_symlink/downloading" = PathState.EmptyDirectory
  ∧ classify fsDirSameResolve "/h/steamapps/downloading"
      "/sd/h_symlink/downloading" ≠ PathState.SymlinkCorrect :=
  ⟨⟨"/h/steamapps/downloading", by decide, by decide⟩, by decide, by decide⟩

theorem already_linked_noop (fs : FS) (confirm : String → Bool)
    (s l t : String) {es : List String} (hes : fs.node t = Node.dir es)
    (hlink : is_symlink_to fs l t = true) :
    execOp fs confirm s l t =
      Except.ok (fs, ⟨s, Outcome.ok,
        "OK: " ++ l ++ " already links to " ++ t⟩) := by
  have hsym : isSymlinkAt fs l = true := by
    unfold is_symlink_to at hlink
    exact (Bool.and_eq_true _ _).mp hlink |>.1
  unfold execOp
  rw [ensure_dir_of_dir hes]
  simp [hsym, hlink]

/-- C4 (amended): when the destination directory already exists, an
operation whose linkPath is already a correct symlink performs no
mutation (the state is returned unchanged), reports the
"already links" success record, and consults no confirmation (the result
is the same for every answer oracle); running it again therefore behaves
identically.  Without the destination-directory hypothesis the claim
fails: `ensure_dir(target_path)` runs first and creates it (see the
counterexample). -/
theorem C4_already_linked_idempotent (fs : FS) (confirm : String → Bool)
    (s l t : String) (hdir : ∃ es, fs.node t = Node.dir es)
    (hlink : is_symlink_to fs l t = true) :
    execOp fs confirm s l t =
      Except.ok (fs, ⟨s, Outcome.ok,
        "OK: " ++ l ++ " already links to " ++ t⟩)
  ∧ ∀ confirm2 : String → Bool,
      execOp fs confirm2 s l t = execOp fs confirm s l t := by
  obtain ⟨es, hes⟩ := hdir
  refine ⟨already_linked_noop fs confirm s l t hes hlink, fun confirm2 => ?_⟩
  rw [already_linked_noop fs confirm s l t hes hlink,
    already_linked_noop fs confirm2 s l t hes hlink]

/-- C4 witness: the concrete already-linked library. -/
theorem C4_already_linked_idempotent_witness :
    execOp fsAlready (fun _ => false) "downloading" "/h/steamapps/downloading"
        "/sd/h_symlink/downloading" =
      Except.ok (fsAlready, ⟨"downloading", Outcome.ok,
        "OK: /h/steamapps/downloading already links to /sd/h_symlink/downloading"⟩) :=
  (C4_already_linked_idempotent fsAlready (fun _ => false) "downloading"
    "/h/steamapps/downloading" "/sd/h_symlink/downloading"
    ⟨[], by decide⟩ (by decide)).1

/-- C4 counterexample: linkPath is a symlink whose resolution agrees with
the resolution of the (absent) destination directory — a `SymlinkCorrect`
state — yet executing the operation creates the destination directory, a
filesystem mutation. -/
theorem C4_already_linked_idempotent_counterexample :
    classify fsBrokenCorrect "/h/steamapps/downloading"
      "/sd/h_symlink/downloading" = PathState.SymlinkCorrect
  ∧ execOp fsBrokenCorrect (fun _ => true) "downloading"
      "/h/steamapps/downloading" "/sd/h_symlink/downloading" =
      Except.ok (setNode fsBrokenCorrect "/sd/h_symlink/downloading" (Node.dir []),
        ⟨"downloading", Outcome.ok,
          "OK: /h/steamapps/downloading already links to /sd/h_symlink/downloading"⟩)
  ∧ (setNode fsBrokenCorrect "/sd/h_symlink/downloading" (Node.dir [])).node
        "/sd/h_symlink/downloading" ≠
      fsBrokenCorrect.node "/sd/h_symlink/downloading" :=
  ⟨by decide, rfl, by decide⟩

theorem skip_wrong_symlink (fs : FS) (confirm : String → Bool)
    (s l t : String) (fs1 : FS) (hlt : l ≠ t)
    (he : ensure_dir fs t = Except.ok fs1)
    (hsym : isSymlinkAt fs l = true) (hwrong : is_symlink_to fs l t = false)
    (hdec : confirm "Replace symlink" = false) :
    execOp fs confirm s l t =
      Except.ok (fs1, ⟨s, Outcome.skipped,
        "Skipped replacing symlink: " ++ l⟩)
    ∧ fs1.node l = fs.node l := by
  rcases ensure_dir_ok_cases he with h1 | ⟨hm, h1⟩ <;> subst h1
  · refine ⟨?_, rfl⟩
    unfold execOp
    rw [he]
    simp [hsym, hwrong, hdec]
  · refine ⟨?_, setNode_node_ne fs t (Node.dir []) hlt⟩
    unfold execOp
    rw [he]
    simp [isSymlinkAt_setNode fs t (Node.dir []) hlt,
      is_symlink_to_setNode fs t (Node.dir []) t hlt, hsym, hwrong, hdec]

theorem skip_nonempty_dir (fs : FS) (confirm : String → Bool)
    (s l t : String) (fs1 : FS) (hlt : l ≠ t)
    (he : ensure_dir fs t = Except.ok fs1)
    (hsym : isSymlinkAt fs l = false) (hex : pexists fs l = true)
    (hdr : pisdir fs l = true) (hne : dir_is_empty fs l = false)
    (hdec : confirm "Move contents?" = false) :
    execOp fs confirm s l t =
      Except.ok (fs1, ⟨s, Outcome.skipped,
        "Skipped: left existing directory: " ++ l⟩)
    ∧ fs1.node l = fs.node l := by
  rcases ensure_dir_ok_cases he with h1 | ⟨hm, h1⟩ <;> subst h1
  · refine ⟨?_, rfl⟩
    unfold execOp
    rw [he]
    simp [hsym, hex, hdr, hne, hdec]
  · refine ⟨?_, setNode_node_ne fs t (Node.dir []) hlt⟩
    unfold execOp
    rw [he]
    simp [isSymlinkAt_setNode fs t (Node.dir []) hlt,
      pexists_setNode fs t (Node.dir []) hlt,
      pisdir_setNode fs t (Node.dir []) hlt,
      dir_is_empty_setNode fs t (Node.dir []) hlt, hsym, hex, hdr, hne, hdec]

/-- C5 (amended): a `SymlinkWrong` or `NonEmptyDirectory` operation whose
confirmation is declined is reported as skipped, and no filesystem
mutation occurs beyond `ensure_dir(target_path)`, which the executor runs
before classification (the result state is exactly the post-`ensure_dir`
state, and the linkPath node is untouched).  The claim's stronger "no
filesystem mutation occurs" fails when the destination directory is
absent (see the counterexample). -/
theorem C5_declined_skips (fs : FS) (confirm : String → Bool)
    (s l t : String) (fs1 : FS) (hlt : l ≠ t)
    (he : ensure_dir fs t = Except.ok fs1) :
    (isSymlinkAt fs l = true → is_symlink_to fs l t = false →
      confirm "Replace symlink" = false →
      execOp fs confirm s l t =
        Except.ok (fs1, ⟨s, Outcome.skipped,
          "Skipped replacing symlink: " ++ l⟩)
      ∧ fs1.node l = fs.node l)
  ∧ (isSymlinkAt fs l = false → pexists fs l = true → pisdir fs l = true →
      dir_is_empty fs l = false → confirm "Move contents?" = false →
      execOp fs confirm s l t =
        Except.ok (fs1, ⟨s, Outcome.skipped,
          "Skipped: left existing directory: " ++ l⟩)
      ∧ fs1.node l = fs.node l) :=
  ⟨fun hsym hwrong hdec =>
    skip_wrong_symlink fs confirm s l t fs1 hlt he hsym hwrong hdec,
   fun hsym hex hdr hne hdec =>
    skip_nonempty_dir fs confirm s l t fs1 hlt he hsym hex hdr hne hdec⟩

/-- C5 witness: wrong symlink, existing destination directory, declined:
skipped record and the state exactly as `ensure_dir` left it (unchanged). -/
theorem C5_declined_skips_witness :
    execOp fsWrongDir (fun _ => false) "downloading" "/h/steamapps/downloading"
        "/sd/h_symlink/downloading" =
      Except.ok (fsWrongDir, ⟨"downloading", Outcome.skipped,
        "Skipped replacing symlink: /h/steamapps/downloading"⟩)
    ∧ fsWrongDir.node "/h/steamapps/downloading" =
        fsWrongDir.node "/h/steamapps/downloading" :=
  (C5_declined_skips fsWrongDir (fun _ => false) "downloading"
    "/h/steamapps/downloading" "/sd/h_symlink/downloading" fsWrongDir
    (by decide) rfl).1 (by decide) (by decide) rfl

/-- C5 counterexample: a declined `SymlinkWrong` operation with an absent
destination directory still mutates the filesystem: `ensure_dir` created
the destination before the confirmation was asked. -/
theorem C5_declined_skips_counterexample :
    isSymlinkAt fsWrongMissing "/h/steamapps/downloading" = true
  ∧ is_symlink_to fsWrongMissing "/h/steamapps/downloading"
      "/sd/h_symlink/downloading" = false
  ∧ execOp fsWrongMissing (fun _ => false) "downloading"
      "/h/steamapps/downloading" "/sd/h_symlink/downloading" =
      Except.ok (setNode fsWrongMissing "/sd/h_symlink/downloading" (Node.dir []),
        ⟨"downloading", Outcome.skipped,
          "Skipped replacing symlink: /h/steamapps/downloading"⟩)
  ∧ (setNode fsWrongMissing "/sd/h_symlink/downloading" (Node.dir [])).node
        "/sd/h_symlink/downloading" ≠
      fsWrongMissing.node "/sd/h_symlink/downloading" :=
  ⟨by decide, by decide, rfl, by decide⟩

/-- C9: whenever one operation of the loop completes with a record — the
"already linked" success, a declined skip, or a failure included — the
destination subdirectory `target_path` exists as a directory afterwards,
because `ensure_dir(target_path)` runs before the linkPath state is
classified and nothing later removes it (assuming distinct link and
target paths). -/
theorem C9_target_dir_ensured (fs : FS) (confirm : String → Bool)
    (s l t : String) (fs' : FS) (r : Record) (hlt : l ≠ t)
    (h : execOp fs confirm s l t = Except.ok (fs', r)) :
    pisdir fs' t = true := by
  unfold execOp at h
  split at h
  · simp at h
  · rename_i fs1 he
    have h1 : pisdir fs1 t = true := ensure_dir_ok_pisdir he
    split at h
    · split at h
      · simp only [Except.ok.injEq, Prod.mk.injEq] at h
        obtain ⟨h2, -⟩ := h
        subst h2
        exact h1
      · split at h
        · simp only [Except.ok.injEq, Prod.mk.injEq] at h
          obtain ⟨h2, -⟩ := h
          subst h2
          exact h1
        · simp only [] at h
          split at h <;>
          · rename_i heqc
            simp only [Except.ok.injEq, Prod.mk.injEq] at h
            obtain ⟨h2, -⟩ := h
            subst h2
            rw [create_symlink_safe_pisdir heqc (Ne.symm hlt),
              pisdir_setNode _ _ _ (Ne.symm hlt)]
            exact h1
    · split at h
      · split at h
        · split at h
          · simp only [] at h
            split at h <;>
            · rename_i heqc
              simp only [Except.ok.injEq, Prod.mk.injEq] at h
              obtain ⟨h2, -⟩ := h
              subst h2
              rw [create_symlink_safe_pisdir heqc (Ne.symm hlt),
                pisdir_setNode _ _ _ (Ne.symm hlt)]
              exact h1
          · split at h
            · simp only [Except.ok.injEq, Prod.mk.injEq] at h
              obtain ⟨h2, -⟩ := h
              subst h2
              exact h1
            · split at h
              · simp at h
              · rename_i fs2 heqm
                have h2m : pisdir fs2 t = true := move_ok_pisdir hlt heqm
                simp only [] at h
                split at h <;>
                · rename_i heqc
                  simp only [Except.ok.injEq, Prod.mk.injEq] at h
                  obtain ⟨h2, -⟩ := h
                  subst h2
                  rw [create_symlink_safe_pisdir heqc (Ne.symm hlt),
                    pisdir_setNode _ _ _ (Ne.symm hlt)]
                  exact h2m
        · simp only [Except.ok.injEq, Prod.mk.injEq] at h
          obtain ⟨h2, -⟩ := h
          subst h2
          exact h1
      · split at h <;>
        · rename_i heqc
          simp only [Except.ok.injEq, Prod.mk.injEq] at h
          obtain ⟨h2, -⟩ := h
          subst h2
          rw [create_symlink_safe_pisdir heqc (Ne.symm hlt)]
          exact h1

/-- C9 witness: after the already-linked no-op, the destination directory
exists. -/
theorem C9_target_dir_ensured_witness :
    pisdir fsAlready "/sd/h_symlink/downloading" = true :=
  C9_target_dir_ensured fsAlready (fun _ => true) "downloading"
    "/h/steamapps/downloading" "/sd/h_symlink/downloading" fsAlready
    ⟨"downloading", Outcome.ok,
      "OK: /h/steamapps/downloading already links to /sd/h_symlink/downloading"⟩
    (by decide) rfl

/-- C10: `dir_is_empty` is total (the `iterdir` failure is absorbed by
its `except` branch, modelled as the `listable` test): a nonexistent path
is empty, a non-directory is non-empty, an existing directory whose
entries cannot be listed is non-empty; consequently the executor treats
an unreadable directory as `NonEmptyDirectory` and asks for confirmation:
declined, the directory is untouched; granted, the move raises (caught at
run level) before the directory is ever removed — never a silent
removal. -/
theorem C10_dir_is_empty_safe :
    (∀ (fs : FS) (p : String), pexists fs p = false → dir_is_empty fs p = true)
  ∧ (∀ (fs : FS) (p : String), pexists fs p = true → pisdir fs p = false →
      dir_is_empty fs p = false)
  ∧ (∀ (fs : FS) (p : String), pexists fs p = true → pisdir fs p = true →
      fs.listable p = false → dir_is_empty fs p = false)
  ∧ (∀ (fs : FS) (confirm : String → Bool) (s l t : String) (fs1 : FS)
      (es : List String), l ≠ t → ensure_dir fs t = Except.ok fs1 →
      fs.node l = Node.dir es → fs.listable l = false →
      (confirm "Move contents?" = false →
        execOp fs confirm s l t =
          Except.ok (fs1, ⟨s, Outcome.skipped,
            "Skipped: left existing directory: " ++ l⟩)
        ∧ fs1.node l = fs.node l)
      ∧ (confirm "Move contents?" = true →
          execOp fs confirm s l t =
            Except.error ("iterdir failed: " ++ l))) := by
  refine ⟨?_, ?_, ?_, ?_⟩
  · intro fs p h
    simp [dir_is_empty, h]
  · intro fs p h1 h2
    simp [dir_is_empty, h1, h2]
  · intro fs p h1 h2 h3
    simp [dir_is_empty, h1, h2, h3]
  · intro fs confirm s l t fs1 es hlt he hnl hul
    have hsym : isSymlinkAt fs l = false := by simp [isSymlinkAt, hnl]
    have hex : pexists fs l = true := by simp [pexists, hnl]
    have hdr : pisdir fs l = true := by simp [pisdir, hnl]
    have hne : dir_is_empty fs l = false := by
      simp [dir_is_empty, hex, hdr, hul]
    constructor
    · intro hdec
      exact skip_nonempty_dir fs confirm s l t fs1 hlt he hsym hex hdr hne hdec
    · intro hacc
      have h1 : pisdir fs1 t = true := ensure_dir_ok_pisdir he
      rcases ensure_dir_ok_cases he with hh | ⟨hm, hh⟩ <;> subst hh
      · unfold execOp
        rw [he]
        simp only [hsym, hex, hdr, hne, hacc, Bool.false_eq_true, if_false,
          if_true, Bool.true_eq_false]
        unfold move_dir_contents
        rw [ensure_dir_of_pisdir h1]
        simp [hul]
      · unfold execOp
        rw [he]
        simp only [isSymlinkAt_setNode fs t (Node.dir []) hlt,
          pexists_setNode fs t (Node.dir []) hlt,
          pisdir_setNode fs t (Node.dir []) hlt,
          dir_is_empty_setNode fs t (Node.dir []) hlt, hsym, hex, hdr, hne,
          hacc, Bool.false_eq_true, if_false, if_true, Bool.true_eq_false]
        unfold move_dir_contents
        rw [ensure_dir_of_pisdir h1]
        have hul2 : (setNode fs t (Node.dir [])).listable l = false := hul
        simp [hul2]

/-- C10 witness: the concrete unreadable `downloading` directory. -/
theorem C10_dir_is_empty_safe_witness :
    dir_is_empty fsUnlistable "/h/steamapps/downloading" = false
  ∧ execOp fsUnlistable (fun _ => true) "downloading"
      "/h/steamapps/downloading" "/sd/h_symlink/downloading" =
      Except.error ("iterdir failed: /h/steamapps/downloading") :=
  ⟨C10_dir_is_empty_safe.2.2.1 fsUnlistable "/h/steamapps/downloading"
      (by decide) (by decide) (by decide),
   ((C10_dir_is_empty_safe.2.2.2 fsUnlistable (fun _ => true) "downloading"
      "/h/steamapps/downloading" "/sd/h_symlink/downloading" fsUnlistable ["g"]
      (by decide) rfl (by decide) (by decide)).2 rfl)⟩

theorem execOp_ok_sub {fs : FS} {confirm : String → Bool} {s l t : String}
    {fs' : FS} {r : Record} (h : execOp fs confirm s l t = Except.ok (fs', r)) :
    r.sub = s := by
  unfold execOp at h
  split at h
  · simp at h
  · split at h
    · split at h
      · simp only [Except.ok.injEq, Prod.mk.injEq] at h
        obtain ⟨-, h3⟩ := h
        subst h3
        rfl
      · split at h
        · simp only [Except.ok.injEq, Prod.mk.injEq] at h
          obtain ⟨-, h3⟩ := h
          subst h3
          rfl
        · simp only [] at h
          split at h <;>
          · simp only [Except.ok.injEq, Prod.mk.injEq] at h
            obtain ⟨-, h3⟩ := h
            subst h3
            rfl
    · split at h
      · split at h
        · split at h
          · simp only [] at h
            split at h <;>
            · simp only [Except.ok.injEq, Prod.mk.injEq] at h
              obtain ⟨-, h3⟩ := h
              subst h3
              rfl
          · split at h
            · simp only [Except.ok.injEq, Prod.mk.injEq] at h
              obtain ⟨-, h3⟩ := h
              subst h3
              rfl
            · split at h
              · simp at h
              · simp only [] at h
                split at h <;>
                · simp only [Except.ok.injEq, Prod.mk.injEq] at h
                  obtain ⟨-, h3⟩ := h
                  subst h3
                  rfl
        · simp only [Except.ok.injEq, Prod.mk.injEq] at h
          obtain ⟨-, h3⟩ := h
          subst h3
          rfl
      · split at h <;>
        · simp only [Except.ok.injEq, Prod.mk.injEq] at h
          obtain ⟨-, h3⟩ := h
          subst h3
          rfl

theorem execOp_error_sources {fs : FS} {confirm : String → Bool}
    {s l t : String} {e : String} (h : execOp fs confirm s l t = Except.error e) :
    ensure_dir fs t = Except.error e ∨
      ∃ fs1, ensure_dir fs t = Except.ok fs1 ∧
        move_dir_contents fs1 l t = Except.error e := by
  unfold execOp at h
  split at h
  · rename_i e1 he
    injection h with h2
    subst h2
    exact Or.inl he
  · rename_i fs1 he
    refine Or.inr ⟨fs1, he, ?_⟩
    split at h
    · split at h
      · simp at h
      · split at h
        · simp at h
        · simp only [] at h
          split at h <;> simp at h
    · split at h
      · split at h
        · split at h
          · simp only [] at h
            split at h <;> simp at h
          · split at h
            · simp at h
            · split at h
              · rename_i e2 heqm
                injection h with h2
                subst h2
                exact heqm
              · simp only [] at h
                split at h <;> simp at h
        · simp at h
      · split at h <;> simp at h

theorem execPlan_none_records (confirm : String → Bool) (sa tr : String) :
    ∀ (subs : List String) (fs : FS),
      (execPlan confirm sa tr subs fs).2.2 = none →
      (execPlan confirm sa tr subs fs).2.1.map Record.sub = subs := by
  intro subs
  induction subs with
  | nil => intro fs _; simp [execPlan]
  | cons sub rest ih =>
    intro fs h
    unfold execPlan at h ⊢
    cases heq : execOp fs confirm sub (joinPath sa sub) (joinPath tr sub) with
    | ok pr =>
      obtain ⟨fs1, r⟩ := pr
      rw [heq] at h
      simp only [] at h ⊢
      rw [List.map_cons, execOp_ok_sub heq, ih fs1 h]
    | error e =>
      rw [heq] at h
      simp at h

theorem execPlan_some_prefix (confirm : String → Bool) (sa tr : String) :
    ∀ (subs : List String) (fs : FS) (e : String),
      (execPlan confirm sa tr subs fs).2.2 = some e →
      ∃ k, k < subs.length ∧
        (execPlan confirm sa tr subs fs).2.1.map Record.sub = subs.take k := by
  intro subs
  induction subs with
  | nil => intro fs e h; simp [execPlan] at h
  | cons sub rest ih =>
    intro fs e h
    unfold execPlan at h ⊢
    cases heq : execOp fs confirm sub (joinPath sa sub) (joinPath tr sub) with
    | ok pr =>
      obtain ⟨fs1, r⟩ := pr
      rw [heq] at h
      simp only [] at h ⊢
      obtain ⟨k, hk, hmap⟩ := ih fs1 e h
      refine ⟨k + 1, by simpa using hk, ?_⟩
      rw [List.map_cons, execOp_ok_sub heq, List.take_succ_cons, hmap]
    | error e2 =>
      rw [heq] at h
      simp only [] at h ⊢
      exact ⟨0, by simp, by simp⟩

/-- C2 (amended): operations run sequentially and create-symlink failures
are isolated — `execOp` only raises through `ensure_dir` of the
destination directory or through `move_dir_contents`, never through
`create_symlink_safe` (whose failures become failed records); in a run
where no operation raises, every plan entry yields exactly one record, in
order; but when an operation raises, the loop stops with the records of a
proper prefix of the plan — contrary to the claim, the remaining
operations are not attempted (see the counterexample). -/
theorem C2_failure_isolation :
    (∀ (fs : FS) (confirm : String → Bool) (s l t e : String),
      execOp fs confirm s l t = Except.error e →
      ensure_dir fs t = Except.error e ∨
        ∃ fs1, ensure_dir fs t = Except.ok fs1 ∧
          move_dir_contents fs1 l t = Except.error e)
  ∧ (∀ (confirm : String → Bool) (sa tr : String) (subs : List String)
      (fs : FS), (execPlan confirm sa tr subs fs).2.2 = none →
      (execPlan confirm sa tr subs fs).2.1.map Record.sub = subs)
  ∧ (∀ (confirm : String → Bool) (sa tr : String) (subs : List String)
      (fs : FS) (e : String), (execPlan confirm sa tr subs fs).2.2 = some e →
      ∃ k, k < subs.length ∧
        (execPlan confirm sa tr subs fs).2.1.map Record.sub = subs.take k) :=
  ⟨fun _ _ _ _ _ _ h => execOp_error_sources h,
   fun confirm sa tr subs fs h => execPlan_none_records confirm sa tr subs fs h,
   fun confirm sa tr subs fs e h => execPlan_some_prefix confirm sa tr subs fs e h⟩

/-- C2 witness: a concrete two-entry plan in which the first operation
fails to create its symlink yet the run raises nothing and both entries
yield their records. -/
theorem C2_failure_isolation_witness :
    (execPlan (fun _ => true) "/h/steamapps" "/sd/h_symlink"
        ["downloading", "temp"]
        { fsPlain with symlink_ok := fun p => p ≠ "/h/steamapps/downloading" }
      ).2.1.map Record.sub = ["downloading", "temp"] :=
  C2_failure_isolation.2.1 (fun _ => true) "/h/steamapps" "/sd/h_symlink"
    ["downloading", "temp"]
    { fsPlain with symlink_ok := fun p => p ≠ "/h/steamapps/downloading" }
    (by decide)

/-- C2 counterexample: `shutil.move` fails on the confirmed non-empty
`downloading`; the exception escapes the loop and is caught only by
`App._run`, so the `temp` operation of the same plan yields no record at
all — the run's whole log is the single run-level `ERROR:` record. -/
theorem C2_failure_isolation_counterexample :
    planOf true = ["downloading", "temp"]
  ∧ (doRun fsMoveFail (fun _ => true) "/h/steamapps" "/sd" true).exit =
      RunExit.raised
  ∧ (doRun fsMoveFail (fun _ => true) "/h/steamapps" "/sd" true).log =
      [⟨"", Outcome.failed, "ERROR: move failed: /h/steamapps/downloading"⟩] :=
  ⟨rfl, by decide, by decide⟩

theorem ensure_dir_total_ok {fs : FS} {p : String}
    (h : fs.node p = Node.missing ∨ ∃ ds, fs.node p = Node.dir ds) :
    ∃ fs', ensure_dir fs p = Except.ok fs' ∧
      (fs' = fs ∨ fs' = setNode fs p (Node.dir [])) := by
  rcases h with hm | ⟨ds, hd⟩
  · exact ⟨_, ensure_dir_of_missing hm, Or.inr rfl⟩
  · exact ⟨fs, ensure_dir_of_dir hd, Or.inl rfl⟩

theorem nodeOk_setNode {fs : FS} {p : String} (q : String)
    (h : fs.node p = Node.missing ∨ ∃ ds, fs.node p = Node.dir ds) :
    (setNode fs q (Node.dir [])).node p = Node.missing ∨
      ∃ ds, (setNode fs q (Node.dir [])).node p = Node.dir ds := by
  by_cases hq : p = q
  · subst hq
    exact Or.inr ⟨[], setNode_node_self _ _ _⟩
  · rw [setNode_node_ne _ _ _ hq]
    exact h

/-- C6: the plan is the ordered list with `downloading` always and `temp`
iff the checkbox flag is set; the destination root is derived as
`dest_base/<parent-name>_symlink` with the `steam_library` fallback for an
empty parent name; the scaffold creates the destination root when it is
absent, and for any creatable destination base and root it succeeds and
leaves the destination root an existing directory. -/
theorem C6_planner :
    (planOf true = ["downloading", "temp"] ∧ planOf false = ["downloading"])
  ∧ (∀ dest sa : String, targetRootOf dest sa =
      joinPath dest ((if parentNameOf sa = "" then "steam_library"
        else parentNameOf sa) ++ "_symlink"))
  ∧ (∀ (fs : FS) (dest sa : String) (ds : List String),
      fs.node dest = Node.dir ds →
      fs.node (targetRootOf dest sa) = Node.missing →
      scaffold fs dest sa =
        (setNode fs (targetRootOf dest sa) (Node.dir []), none))
  ∧ (∀ (fs : FS) (dest sa : String),
      (fs.node dest = Node.missing ∨ ∃ ds, fs.node dest = Node.dir ds) →
      (fs.node (targetRootOf dest sa) = Node.missing ∨
        ∃ ts, fs.node (targetRootOf dest sa) = Node.dir ts) →
      (scaffold fs dest sa).2 = none ∧
        pisdir (scaffold fs dest sa).1 (targetRootOf dest sa) = true) := by
  refine ⟨⟨rfl, rfl⟩, fun dest sa => rfl, ?_, ?_⟩
  · intro fs dest sa ds hdest htr
    simp [scaffold, ensure_dir_of_dir hdest, ensure_dir_of_missing htr]
  · intro fs dest sa h1 h2
    obtain ⟨fs1, he1, hc1⟩ := ensure_dir_total_ok h1
    have h2' : fs1.node (targetRootOf dest sa) = Node.missing ∨
        ∃ ts, fs1.node (targetRootOf dest sa) = Node.dir ts := by
      rcases hc1 with rfl | rfl
      · exact h2
      · exact nodeOk_setNode dest h2
    obtain ⟨fs2, he2, -⟩ := ensure_dir_total_ok h2'
    have hs : scaffold fs dest sa = (fs2, none) := by
      unfold scaffold
      rw [he1]
      simp only []
      rw [he2]
    rw [hs]
    exact ⟨rfl, ensure_dir_ok_pisdir he2⟩

/-- C6 witness: on the concrete library, the scaffold creates the absent
`/sd/h_symlink` destination root. -/
theorem C6_planner_witness :
    scaffold fsPlain "/sd" "/h/steamapps" =
      (setNode fsPlain (targetRootOf "/sd" "/h/steamapps") (Node.dir []), none) :=
  C6_planner.2.2.1 fsPlain "/sd" "/h/steamapps" [] (by decide) (by decide)

/-- C8: when the chosen steamapps directory does not exist or is not a
directory, the run aborts with `InvalidSource`: the state is returned
untouched (in particular neither the destination base nor the destination
root has been created) and nothing is logged. -/
theorem C8_invalid_source (fs : FS) (confirm : String → Bool)
    (saRaw destRaw : String) (flag : Bool)
    (h1 : stripStr saRaw ≠ "") (h2 : stripStr destRaw ≠ "")
    (h3 : nameOf (normPath (stripStr saRaw)) = "steamapps" ∨
      confirm "Confirm steamapps" = true)
    (h4 : pexists fs (normPath (stripStr saRaw)) = false ∨
      pisdir fs (normPath (stripStr saRaw)) = false) :
    doRun fs confirm saRaw destRaw flag = ⟨fs, [], RunExit.invalidSource⟩ := by
  unfold doRun
  simp only []
  rw [if_neg h1, if_neg h2]
  rcases h3 with h3 | h3
  · rw [if_pos h3]
    unfold doRunValidated
    rw [if_pos h4]
  · by_cases hname : nameOf (normPath (stripStr saRaw)) = "steamapps"
    · rw [if_pos hname]
      unfold doRunValidated
      rw [if_pos h4]
    · rw [if_neg hname, if_pos h3]
      unfold doRunValidated
      rw [if_pos h4]

/-- C8 witness: a missing steamapps directory aborts the concrete run
before any mutation. -/
theorem C8_invalid_source_witness :
    doRun fsPlain (fun _ => true) "/nope/steamapps" "/sd" true =
      ⟨fsPlain, [], RunExit.invalidSource⟩ :=
  C8_invalid_source fsPlain (fun _ => true) "/nope/steamapps" "/sd" true
    (by decide) (by decide) (Or.inl (by decide)) (Or.inl (by decide))

theorem dropWhile_length_le (p : Char → Bool) (l : List Char) :
    (l.dropWhile p).length ≤ l.length := by
  induction l with
  | nil => simp [List.dropWhile]
  | cons c cs ih =>
    simp only [List.dropWhile]
    split
    · exact Nat.le_succ_of_le ih
    · exact Nat.le_refl _

theorem grabVal_length : ∀ {cs v r : List Char},
    grabVal cs = some (v, r) → r.length < cs.length := by
  intro cs
  induction cs with
  | nil => intro v r h; simp [grabVal] at h
  | cons c cs ih =>
    intro v r h
    unfold grabVal at h
    split at h
    · injection h with h1
      injection h1 with h2 h3
      subst h3
      simp
    · split at h
      · rename_i v' r' heq
        injection h with h1
        injection h1 with h2 h3
        subst h3
        simpa using Nat.lt_succ_of_lt (ih heq)
      · simp at h

theorem matchPathAt_length : ∀ {cs : List Char} {v : String} {rest : List Char},
    matchPathAt cs = some (v, rest) → rest.length < cs.length := by
  intro cs v rest h
  unfold matchPathAt at h
  split at h
  · rename_i c cs2
    split at h
    · split at h
      · rename_i rest2 heqd
        split at h
        · rename_i v' r' heqg
          split at h
          · simp at h
          · injection h with h1
            injection h1 with h2 h3
            subst h3
            have hg : r'.length < rest2.length := grabVal_length heqg
            have hd : (cs2.dropWhile isSpaceChar).length ≤ cs2.length :=
              dropWhile_length_le _ _
            rw [heqd] at hd
            simp only [List.length_cons] at hd ⊢
            omega
        · simp at h
      · simp at h
    · simp at h
  · simp at h

theorem scanGo_stable : ∀ (f1 : Nat), ∀ {f2 : Nat} {cs : List Char},
    cs.length ≤ f1 → cs.length ≤ f2 → scanGo f1 cs = scanGo f2 cs := by
  intro f1
  induction f1 with
  | zero =>
    intro f2 cs h1 h2
    have : cs = [] := List.length_eq_zero.mp (Nat.le_zero.mp h1)
    subst this
    cases f2 with
    | zero => rfl
    | succ f2 => simp [scanGo, matchPathAt]
  | succ f1 ih =>
    intro f2 cs h1 h2
    cases cs with
    | nil =>
      cases f2 with
      | zero => simp [scanGo, matchPathAt]
      | succ f2 => simp [scanGo, matchPathAt]
    | cons c tl =>
      cases f2 with
      | zero => simp at h2
      | succ f2 =>
        cases hm : matchPathAt (c :: tl) with
        | some pr =>
          obtain ⟨v, rest⟩ := pr
          have hr : rest.length < (c :: tl).length := matchPathAt_length hm
          simp only [scanGo, hm]
          have hr1 : rest.length ≤ f1 := by
            simp only [List.length_cons] at hr h1
            omega
          have hr2 : rest.length ≤ f2 := by
            simp only [List.length_cons] at hr h2
            omega
          rw [ih hr1 hr2]
        | none =>
          simp only [scanGo, hm]
          have ht1 : tl.length ≤ f1 := by
            simp only [List.length_cons] at h1
            omega
          have ht2 : tl.length ≤ f2 := by
            simp only [List.length_cons] at h2
            omega
          rw [ih ht1 ht2]

theorem scanPaths_cons_match {cs : List Char} {v : String} {rest : List Char}
    (h : matchPathAt cs = some (v, rest)) :
    scanPaths cs = v :: scanPaths rest := by
  cases cs with
  | nil => simp [matchPathAt] at h
  | cons c tl =>
    have hr : rest.length < (c :: tl).length := matchPathAt_length h
    unfold scanPaths
    simp only [List.length_cons, scanGo, h]
    congr 1
    have hr1 : rest.length ≤ tl.length := by
      simp only [List.length_cons] at hr
      omega
    exact scanGo_stable tl.length hr1 (Nat.le_refl _)

theorem scanPaths_cons_none {c : Char} {tl : List Char}
    (h : matchPathAt (c :: tl) = none) :
    scanPaths (c :: tl) = scanPaths tl := by
  unfold scanPaths
  simp only [List.length_cons, scanGo, h]

theorem matchPathAt_cons_ne {c : Char} (cs : List Char) (h : ¬ c = '"') :
    matchPathAt (c :: cs) = none := by
  unfold matchPathAt
  split
  · rename_i heq
    injection heq with h1 h2
    exact absurd h1 h
  · rfl

theorem scanPaths_append_sep : ∀ (sep : List Char), (∀ c ∈ sep, ¬ c = '"') →
    ∀ rest, scanPaths (sep ++ rest) = scanPaths rest := by
  intro sep
  induction sep with
  | nil => intro _ rest; rfl
  | cons c tl ih =>
    intro hq rest
    have hc : ¬ c = '"' := hq c (by simp)
    rw [List.cons_append,
      scanPaths_cons_none (matchPathAt_cons_ne (tl ++ rest) hc)]
    exact ih (fun d hd => hq d (by simp [hd])) rest

theorem grabVal_append : ∀ (xs : List Char), (∀ c ∈ xs, ¬ c = '"') →
    ∀ r, grabVal (xs ++ '"' :: r) = some (xs, r) := by
  intro xs
  induction xs with
  | nil => intro _ r; simp [grabVal]
  | cons c tl ih =>
    intro hq r
    have hc : ¬ c = '"' := hq c (by simp)
    rw [List.cons_append]
    unfold grabVal
    rw [if_neg hc, ih (fun d hd => hq d (by simp [hd])) r]

theorem matchPathAt_occBlock (v : String) (rest : List Char)
    (hne : v.data ≠ []) (hq : ∀ c ∈ v.data, ¬ c = '"') :
    matchPathAt (occBlock v ++ rest) = some (v, rest) := by
  have hgv : grabVal (v.data ++ '"' :: rest) = some (v.data, rest) :=
    grabVal_append v.data hq rest
  unfold occBlock
  simp only [List.cons_append, List.append_assoc, List.singleton_append,
    List.nil_append]
  unfold matchPathAt
  simp only []
  rw [if_pos (show isSpaceChar ' ' = true from rfl)]
  rw [show List.dropWhile isSpaceChar ('"' :: (v.data ++ '"' :: rest)) =
    '"' :: (v.data ++ '"' :: rest) from by
      simp [List.dropWhile, isSpaceChar]]
  simp only [hgv]
  rw [if_neg hne]

theorem scanPaths_no_quote (t : List Char) (h : ∀ c ∈ t, ¬ c = '"') :
    scanPaths t = [] := by
  have h2 := scanPaths_append_sep t h []
  rw [List.append_nil] at h2
  exact h2

theorem scanPaths_assemble :
    ∀ (blocks : List (List Char × String)) (tail : List Char),
      (∀ b ∈ blocks, (∀ c ∈ b.1, ¬ c = '"') ∧ b.2 ≠ "" ∧
        ∀ c ∈ b.2.data, ¬ c = '"') →
      (∀ c ∈ tail, ¬ c = '"') →
      scanPaths (assemble blocks tail) = blocks.map Prod.snd := by
  intro blocks
  induction blocks with
  | nil =>
    intro tail _ htail
    exact scanPaths_no_quote tail htail
  | cons b rest ih =>
    intro tail hb htail
    obtain ⟨sep, v⟩ := b
    obtain ⟨hsep, hvne, hvq⟩ := hb (sep, v) (by simp)
    have hvd : v.data ≠ [] := by
      intro hd
      apply hvne
      cases v with
      | mk data =>
        simp only [String.data] at hd
        rw [hd]
    unfold assemble
    rw [List.append_assoc, scanPaths_append_sep sep hsep,
      scanPaths_cons_match (matchPathAt_occBlock v (assemble rest tail) hvd hvq),
      ih tail (fun b2 hb2 => hb (b2) (by simp [hb2])) htail]
    rfl

/-- C3: ConfigParser is best-effort and order-preserving — unreadable
input parses to the empty list; a text with no quote character (so no
`"path" "X"` occurrence) parses to the empty list; and a text assembled
from quote-free separators around well-formed `"path" "X"` occurrences
(with a quote-free tail) parses to exactly the occurrence values in order
of appearance, each expanded and kept only when it exists on disk. -/
theorem C3_config_best_effort (env : Env) (p : String) :
    (env.read p = none → parse_libraryfolders env p = [])
  ∧ (∀ t, env.read p = some t → (∀ c ∈ t.data, ¬ c = '"') →
      parse_libraryfolders env p = [])
  ∧ (∀ (t : String) (blocks : List (List Char × String)) (tail : List Char),
      env.read p = some t → t.data = assemble blocks tail →
      (∀ b ∈ blocks, (∀ c ∈ b.1, ¬ c = '"') ∧ b.2 ≠ "" ∧
        ∀ c ∈ b.2.data, ¬ c = '"') →
      (∀ c ∈ tail, ¬ c = '"') →
      parse_libraryfolders env p =
        ((blocks.map Prod.snd).map env.expand).filter env.exists_) := by
  refine ⟨?_, ?_, ?_⟩
  · intro h
    simp [parse_libraryfolders, h]
  · intro t h hq
    simp [parse_libraryfolders, h, scanPaths_no_quote t.data hq]
  · intro t blocks tail h hassem hb htail
    simp only [parse_libraryfolders, h]
    rw [hassem, scanPaths_assemble blocks tail hb htail]

/-- C3 witness: one embedded `"path" "/mnt/lib"` occurrence between junk
text, with the library existing on disk. -/
theorem C3_config_best_effort_witness :
    parse_libraryfolders envBenign "/cfg" = ["/mnt/lib"] :=
  ((C3_config_best_effort envBenign "/cfg").2.2 "x \"path\" \"/mnt/lib\" y"
    [("x ".data, "/mnt/lib")] " y".data rfl (by decide) (by decide)
    (by decide)).trans (by decide)

/-- C7: LibraryDiscovery returns a lexicographically sorted, duplicate-free
list whose members are exactly the expanded default locations that exist
as directories together with the `<root>/steamapps` of every root parsed
from an existing configuration file when that steamapps path exists as a
directory. -/
theorem C7_discovery (env : Env) :
    List.Sorted (fun a b : String => a ≤ b) (discover_steamapps_dirs env)
  ∧ (discover_steamapps_dirs env).Nodup
  ∧ ∀ x, x ∈ discover_steamapps_dirs env ↔
      ((x ∈ defaultSteamappsCandidates.map env.expand ∧
          env.exists_ x = true ∧ env.isDir x = true) ∨
        ∃ vdf ∈ find_libraryfolders_files env,
          ∃ root ∈ parse_libraryfolders env vdf,
            x = joinPath root "steamapps" ∧
              env.exists_ x = true ∧ env.isDir x = true) := by
  refine ⟨?_, ?_, ?_⟩
  · have hs := @List.sorted_mergeSort String
      (fun a b : String => decide (a ≤ b))
      (fun a b c hab hbc => by
        simp only [decide_eq_true_eq] at hab hbc ⊢
        exact le_trans hab hbc)
      (fun a b => by
        simp only [Bool.or_eq_true, decide_eq_true_eq]
        exact le_total a b)
      (((defaultSteamappsCandidates.map env.expand).filter
          (fun p => env.exists_ p && env.isDir p) ++
        (find_libraryfolders_files env).flatMap (fun vdf =>
          ((parse_libraryfolders env vdf).map
            (fun root => joinPath root "steamapps")).filter
              (fun sa => env.exists_ sa && env.isDir sa))).dedup)
    exact List.Pairwise.imp (fun h => by simpa using h) hs
  · exact ((List.mergeSort_perm _ _).symm).nodup
      (List.nodup_dedup _)
  · intro x
    simp only [discover_steamapps_dirs, List.mem_mergeSort, List.mem_dedup,
      List.mem_append, List.mem_filter, List.mem_flatMap, List.mem_map,
      Bool.and_eq_true]
    aesop
